import Mathlib

/-!
Verification of the navidrome folder-producing scanner (scanner2/produce_folders.go)
and of the download archiver (core/archiver.go), as a shallow embedding in Lean.

Times are modelled as integers; the Go `time.Time` zero value is the integer 0 and
`t.After(u)` is the strict comparison `u < t`.  Paths and file names are strings;
`filepath.Join(a, b)` on already-clean inputs is modelled as `a ++ "/" ++ b`.
The ambient world (operating-system calls, the injected file-kind classifiers,
the platform, the cancellation state of the surrounding context) is bundled in
an explicit `Env` record, so that every function of the source becomes a pure
Lean function of the environment and its source arguments.
-/

/-- One entry of a directory listing, as the scanner sees it through `fs.DirEntry`:
its name, whether it is a directory, whether it is a symbolic link, and the result
of its `Info()` call (`none` models an `Info()` error; `some t` gives the
modification time). -/
structure DirEntry where
  name : String
  isDir : Bool
  isSymlink : Bool
  info : Option Int
deriving DecidableEq

/-- The result of one `ReadDir(-1)` call on an open directory: the entries it
returned (possibly alongside an error) and the error message, if any. -/
structure RDResult where
  entries : List DirEntry
  errMsg : Option String
deriving DecidableEq

/-- The ambient environment of the scanner: the answers the operating system and
the injected collaborators give.  `statDir p` is `os.Stat(p).ModTime()` (`none`
on error); `openOk p` says whether `os.Open(p)` succeeds; `readScript p` is the
sequence of results successive `ReadDir(-1)` calls on the opened `p` would
return; `statIsDir p` resolves a symlink at `p` (`none` on a failed stat);
`markerExists p` says whether `os.Stat(p ++ "/" ++ consts.SkipScanFile)`
succeeds; `isAudioFile`, `isImageFile`, `isValidPlaylist` are the injected
file-kind classifiers; `goosWindows` is `runtime.GOOS == "windows"`;
`clean` is `filepath.Clean`; `cancelled` says whether the surrounding context
is cancelled (`ctx.Err() != nil`), taken constant over one call. -/
structure Env where
  cancelled : Bool
  statDir : String → Option Int
  openOk : String → Bool
  readScript : String → List RDResult
  statIsDir : String → Option Bool
  markerExists : String → Bool
  isAudioFile : String → Bool
  isImageFile : String → Bool
  isValidPlaylist : String → Bool
  goosWindows : Bool
  clean : String → String

/-- Per-library scan state, from `scanContext`: the full-rescan flag, the
last-recorded update time per folder id loaded from the store at context
creation (`getLastUpdatedInDB`, zero when never seen), and the folder id
function `model.FolderID(lib, path)` with the library fixed. -/
structure scanContext where
  fullRescan : Bool
  lastUpdated : String → Int
  folderId : String → String

/-- The output record of the scanner for one directory (`folderEntry`). -/
structure folderEntry where
  id : String
  path : String
  updTime : Int
  modTime : Int
  imagesUpdatedAt : Int
  audioFiles : List DirEntry
  imageFiles : List DirEntry
  playlists : List DirEntry
deriving DecidableEq

/-- The distinguishable error outcomes of `loadDir`. -/
inductive ScanErr where
  | statErr : ScanErr
  | openErr : ScanErr
  | ctxErr : ScanErr
  | infoErr : String → ScanErr
deriving DecidableEq

/-- The triple returned by `loadDir`: the folder (absent exactly on a stat
failure), the collected child directory paths, and the error, if any. -/
structure LoadRes where
  folder : Option folderEntry
  children : List String
  err : Option ScanErr
deriving DecidableEq

/-- Models `filepath.Join(a, b)` on clean arguments. -/
def pjoin (a b : String) : String :=
  a ++ "/" ++ b

/-- Models `strings.HasPrefix(s, p)`. -/
def strHasPre (s p : String) : Bool :=
  p.data.isPrefixOf s.data

/-- Models `strings.EqualFold(a, b)` for ASCII arguments: both sides are
compared after lower-casing character by character. -/
def equalFold (a b : String) : Bool :=
  a.data.map Char.toLower == b.data.map Char.toLower

/-- Go string comparison `a < b` (byte order of the UTF-8 encodings, which
agrees with code-point order) on the underlying character lists. -/
def nameLe (a b : DirEntry) : Prop :=
  a.name.data ≤ b.name.data

instance : DecidableRel nameLe := fun a b =>
  inferInstanceAs (Decidable (a.name.data ≤ b.name.data))

instance : IsTotal DirEntry nameLe :=
  ⟨fun a b => le_total a.name.data b.name.data⟩

instance : IsTrans DirEntry nameLe :=
  ⟨fun _ _ _ h h' => le_trans h h'⟩

/-- Models `sort.Slice(l, func(i, j) { return l[i].Name() < l[j].Name() })`:
the list sorted (non-decreasingly) by entry name.  `sort.Slice` is not stable,
so only the name order is significant; a deterministic insertion sort stands in
for the concrete permutation. -/
def sortEntries (l : List DirEntry) : List DirEntry :=
  l.insertionSort nameLe

/-- The loop of `fullReadDir`, threading the previous error message
(`prevErrStr`, initially the empty string) and the accumulated entries through
the successive `ReadDir(-1)` results.  Besides the accumulated entries it
returns the number of `ReadDir` calls performed, so that early termination is
observable.  An exhausted script ends the loop with the accumulation so far;
all theorems below place the stopping point inside the script. -/
def fullReadDirGo (cancelled : Bool) : String → List DirEntry → List RDResult → List DirEntry × Nat
  | _, acc, [] => (acc, 0)
  | prevErrStr, acc, r :: rest =>
    if cancelled then ([], 0)
    else
      let acc2 := acc ++ r.entries
      match r.errMsg with
      | none => (acc2, 1)
      | some m =>
        if prevErrStr = m then (acc2, 1)
        else
          let res := fullReadDirGo cancelled m acc2 rest
          (res.1, res.2 + 1)

/-- Models `fullReadDir(ctx, dir)` for the directory opened at `dirPath`:
repeatedly calls `ReadDir(-1)`, accumulating every returned entry (also on
erroring calls), stops on a nil error or on an error message identical to the
immediately preceding one, returns the accumulation sorted by name, and returns
the empty list at once when the context is cancelled. -/
def fullReadDir (env : Env) (dirPath : String) : List DirEntry :=
  sortEntries (fullReadDirGo env.cancelled "" [] (env.readScript dirPath)).1

/-- The number of `ReadDir(-1)` calls `fullReadDir` performs at `dirPath`. -/
def fullReadDirCalls (env : Env) (dirPath : String) : Nat :=
  (fullReadDirGo env.cancelled "" [] (env.readScript dirPath)).2

/-- Models `isDirOrSymlinkToDir(baseDir, dirEnt)`: `some true` for a directory,
`some false` for a plain non-directory, and for a symlink the resolved answer of
`os.Stat` on the joined path (`none` models the error return of a failed stat,
e.g. a broken link). -/
def isDirOrSymlinkToDir (env : Env) (baseDir : String) (dirEnt : DirEntry) : Option Bool :=
  if dirEnt.isDir then some true
  else if !dirEnt.isSymlink then some false
  else env.statIsDir (pjoin baseDir dirEnt.name)

/-- Models `isDirReadable(ctx, baseDir, dirEnt)`: whether the probing
`os.Open` of the joined path succeeds (the close result is only logged). -/
def isDirReadable (env : Env) (baseDir : String) (dirEnt : DirEntry) : Bool :=
  env.openOk (pjoin baseDir dirEnt.name)

/-- Models `isDirIgnored(baseDir, dirEnt)`: a name starting with a dot but not
with two dots, the recycle-bin name on Windows (compared case-insensitively),
or the presence of the skip-scan marker file inside the subdirectory. -/
def isDirIgnored (env : Env) (baseDir : String) (dirEnt : DirEntry) : Bool :=
  let name := dirEnt.name
  if strHasPre name "." && !strHasPre name ".." then true
  else if env.goosWindows && equalFold name "$RECYCLE.BIN" then true
  else env.markerExists (pjoin baseDir name)

/-- Insertion into the Go maps `folder.audioFiles` / `folder.imageFiles`
(keyed by entry name): any previous binding of the same name is replaced. -/
def mapInsert (e : DirEntry) (m : List DirEntry) : List DirEntry :=
  (m.filter (fun x => x.name ≠ e.name)) ++ [e]

/-- The body of the non-directory branch of the `loadDir` entry loop, for an
entry whose `Info()` succeeded with modification time `t`: fold `t` into
`folder.modTime` (`fileInfo.ModTime().After(folder.modTime)` check), then
classify the entry as audio, playlist or image — in the order of the source
switch — folding image times into `folder.imagesUpdatedAt`. -/
def classifyEntry (env : Env) (e : DirEntry) (t : Int) (f : folderEntry) : folderEntry :=
  let f1 := if f.modTime < t then { f with modTime := t } else f
  if env.isAudioFile e.name then
    { f1 with audioFiles := mapInsert e f1.audioFiles }
  else if env.isValidPlaylist e.name then
    { f1 with playlists := f1.playlists ++ [e] }
  else if env.isImageFile e.name then
    let fi := { f1 with imageFiles := mapInsert e f1.imageFiles }
    if fi.imagesUpdatedAt < t then { fi with imagesUpdatedAt := t } else fi
  else f1

/-- The entry loop of `loadDir` over the listing produced by `fullReadDir`,
threading the folder under construction and the collected children.  Per
iteration: a cancelled context aborts with its error; a failed symlink
resolution skips the entry; a kept subdirectory (directory or symlink to one,
not ignored, readable) is collected as a child; any other entry has its
`Info()` taken — a failure there aborts the whole load — and is folded into
the folder by `classifyEntry`. -/
def loadDirLoop (env : Env) (dirPath : String) :
    List DirEntry → folderEntry → List String → LoadRes
  | [], f, cs => ⟨some f, cs, none⟩
  | e :: rest, f, cs =>
    if env.cancelled then ⟨some f, cs, some ScanErr.ctxErr⟩
    else
      match isDirOrSymlinkToDir env dirPath e with
      | none => loadDirLoop env dirPath rest f cs
      | some d =>
        if d && !isDirIgnored env dirPath e && isDirReadable env dirPath e then
          loadDirLoop env dirPath rest f (cs ++ [pjoin dirPath e.name])
        else
          match e.info with
          | none => ⟨some f, cs, some (ScanErr.infoErr e.name)⟩
          | some t => loadDirLoop env dirPath rest (classifyEntry env e t f) cs

/-- Models `loadDir(ctx, scanCtx, dirPath)`: build the fresh folder record with
its id and recorded update time, stat the directory for the base modification
time (a failure returns no folder), open it (a failure returns the folder with
an error), then run the entry loop over the full listing. -/
def loadDir (env : Env) (sc : scanContext) (dirPath : String) : LoadRes :=
  let fid := sc.folderId dirPath
  let folder0 : folderEntry :=
    { id := fid, path := dirPath, updTime := sc.lastUpdated fid, modTime := 0,
      imagesUpdatedAt := 0, audioFiles := [], imageFiles := [], playlists := [] }
  match env.statDir dirPath with
  | none => ⟨none, [], some ScanErr.statErr⟩
  | some t0 =>
    let folder1 := { folder0 with modTime := t0 }
    if env.openOk dirPath then
      loadDirLoop env dirPath (fullReadDir env dirPath) folder1 []
    else ⟨some folder1, [], some ScanErr.openErr⟩

/-- Modelled from the spec: `folderEntry.isOutdated` is defined in a source
file of the repository that is not part of the provided excerpt; the spec
states that a folder is outdated if and only if its recomputed `modTime` is
strictly after its recorded `updTime`. -/
def folderEntry.isOutdated (f : folderEntry) : Bool :=
  decide (f.updTime < f.modTime)

/-- Models `walkFolder(ctx, scanCtx, currentFolder, results)`: load the
directory (an error skips it, and with it its subtree), recurse into every
collected child, then append the folder itself to the output exactly when it is
outdated or the scan is a forced full rescan, with its path cleaned.  The
result list is the emission order on the output channel; the extra fuel
argument bounds the recursion depth and is chosen large enough in every
theorem. -/
def walkFolder (env : Env) (sc : scanContext) : Nat → String → List folderEntry
  | 0, _ => []
  | n + 1, currentFolder =>
    let r := loadDir env sc currentFolder
    match r.err with
    | some _ => []
    | none =>
      match r.folder with
      | none => []
      | some folder =>
        let rest := r.children.flatMap (fun c => walkFolder env sc n c)
        if !folder.isOutdated && !sc.fullRescan then rest
        else rest ++ [{ folder with path := env.clean currentFolder }]

/-- A media file as the archiver uses it (`model.MediaFile`): the fields read
by the zipping code. -/
structure MediaFile where
  path : String
  suffix : String
  artist : String
  title : String
  album : String
  albumID : String
  discNumber : Int
deriving DecidableEq

/-- The ambient environment of the archiver: what the data store returns for
the three queries, the outcome of each `addFileToZip` call (keyed by the name
of the zip entry; `some e` is a failure with message `e`), and the outcome of
the final `zip.Writer.Close`. -/
structure ZipEnv where
  albumQuery : Except String (List MediaFile)
  artistQuery : Except String (List MediaFile)
  playlistQuery : Except String (List MediaFile)
  addOutcome : String → Option String
  closeOutcome : Option String

/-- Models `fmt.Sprintf("%02d", n)` for a non-negative count: zero-padded to at
least two digits. -/
def pad2 (n : Nat) : String :=
  if n < 10 then "0" ++ toString n else toString n

/-- Models `fmt.Sprintf("%02d", n)` for a Go `int` (used for disc numbers):
the sign is kept and the width padding only applies below ten. -/
def pad2Int (n : Int) : String :=
  if 0 ≤ n && n < 10 then "0" ++ toString n else toString n

/-- The file-name part of `filepath.Split(p)`: everything after the last
separator. -/
def baseName (p : String) : String :=
  String.mk ((p.data.reverse.takeWhile (fun c => c ≠ '/')).reverse)

/-- Models `strings.TrimSuffix(s, suf)`: drops `suf` from the end of `s` when
it is there, otherwise returns `s` unchanged. -/
def trimSuf (s suf : String) : String :=
  if suf.data.isSuffixOf s.data then
    String.mk (s.data.take (s.data.length - suf.data.length))
  else s

/-- Models `albumFilename(mf, format, isMultDisc)`. -/
def albumFilename (mf : MediaFile) (format : String) (isMultDisc : Bool) : String :=
  let file := baseName mf.path
  let file := if format ≠ "raw" then trimSuf file mf.suffix ++ format else file
  let file := if isMultDisc then "Disc " ++ pad2Int mf.discNumber ++ "/" ++ file else file
  mf.album ++ "/" ++ file

/-- Models `playlistFilename(mf, format, idx)`: the zip entry name
`"%02d - %s - %s.%s"` built from the one-based position, artist, title and
extension, the extension being the requested format unless that format is
`"raw"`, in which case it is the original suffix of the file. -/
def playlistFilename (mf : MediaFile) (format : String) (idx : Nat) : String :=
  let ext := if format ≠ "raw" then format else mf.suffix
  pad2 (idx + 1) ++ " - " ++ mf.artist ++ " - " ++ mf.title ++ "." ++ ext

/-- Models `addFileToZip`: creating the zip entry, opening or transcoding the
file and copying it are external effects, abstracted by the environment as a
single outcome per entry name.  The value is the error the call returns. -/
def addFileToZip (env : ZipEnv) (filename : String) : Option String :=
  env.addOutcome filename

/-- Models `slice.Group(l, key)` followed by the `for ... range` over the
resulting map: the groups of `l` under `key`.  Go map iteration order is
unspecified; here the groups come in order of first occurrence of their key. -/
def groupVals {β : Type} [DecidableEq β] (key : MediaFile → β) (l : List MediaFile) :
    List (List MediaFile) :=
  ((l.map key).dedup).map (fun k => l.filter (fun mf => key mf = k))

/-- Models `zipAlbums`: group the files by album id, then per album determine
multi-disc status by grouping on disc number, add every file to the zip
discarding the outcome of each `addFileToZip`, and return the `Close` outcome.
The first component records every `addFileToZip` call (entry name and its
discarded outcome) in call order; the second is the returned error. -/
def zipAlbums (env : ZipEnv) (format : String) (mfs : List MediaFile) :
    List (String × Option String) × Option String :=
  let albums := groupVals (fun mf => mf.albumID) mfs
  let calls := albums.flatMap (fun album =>
    let discs := groupVals (fun mf => mf.discNumber) album
    let isMultDisc : Bool := decide (1 < discs.length)
    album.map (fun mf =>
      let file := albumFilename mf format isMultDisc
      (file, addFileToZip env file)))
  (calls, env.closeOutcome)

/-- Models `ZipAlbum`: on a store failure return that error, otherwise zip the
album files. -/
def ZipAlbum (env : ZipEnv) (format : String) :
    List (String × Option String) × Option String :=
  match env.albumQuery with
  | Except.error e => ([], some e)
  | Except.ok mfs => zipAlbums env format mfs

/-- Models `ZipArtist`: on a store failure return that error, otherwise zip the
artist files. -/
def ZipArtist (env : ZipEnv) (format : String) :
    List (String × Option String) × Option String :=
  match env.artistQuery with
  | Except.error e => ([], some e)
  | Except.ok mfs => zipAlbums env format mfs

/-- Models `zipPlaylist`: add every playlist track to the zip under its
position-based name, discarding the outcome of each `addFileToZip`, and return
the `Close` outcome. -/
def zipPlaylist (env : ZipEnv) (format : String) (mfs : List MediaFile) :
    List (String × Option String) × Option String :=
  let calls := mfs.enum.map (fun p =>
    let file := playlistFilename p.2 format p.1
    (file, addFileToZip env file))
  (calls, env.closeOutcome)

/-- Models `ZipPlaylist`: on a store failure return that error, otherwise zip
the playlist tracks. -/
def ZipPlaylist (env : ZipEnv) (format : String) :
    List (String × Option String) × Option String :=
  match env.playlistQuery with
  | Except.error e => ([], some e)
  | Except.ok mfs => zipPlaylist env format mfs

/-- The reader passes through all of the given `ReadDir` results without
stopping, starting from the given previous error message: every result errors,
and each message differs from the one immediately before it. -/
def runsThrough (prevErrStr : String) : List RDResult → Bool
  | [] => true
  | r :: rest =>
    match r.errMsg with
    | none => false
    | some m => if prevErrStr = m then false else runsThrough m rest

/-- The previous-error message held by the reader after passing through the
given results. -/
def lastMsgAfter (prevErrStr : String) : List RDResult → String
  | [] => prevErrStr
  | r :: rest => lastMsgAfter (r.errMsg.getD prevErrStr) rest

/-- First scripted result of the stuck witness: one entry, failing call. -/
def rdStuck1 : RDResult :=
  ⟨[⟨"b", false, false, some 1⟩], some "boom"⟩

/-- Second scripted result of the stuck witness: one entry, same failure. -/
def rdStuck2 : RDResult :=
  ⟨[⟨"a", false, false, some 2⟩], some "boom"⟩

/-- C3 witness env: a script whose five calls would all fail with the same
message, the first two returning one entry each. -/
def envStuck : Env :=
  { cancelled := false
    statDir := fun _ => some 0
    openOk := fun _ => true
    readScript := fun _ => rdStuck1 :: rdStuck2 :: List.replicate 3 ⟨[], some "boom"⟩
    statIsDir := fun _ => some false
    markerExists := fun _ => false
    isAudioFile := fun _ => false
    isImageFile := fun _ => false
    isValidPlaylist := fun _ => false
    goosWindows := false
    clean := fun s => s }

/-- First scripted result of the success witness: one entry alongside an
error. -/
def rdFlaky : RDResult :=
  ⟨[⟨"c", false, false, some 1⟩], some "flaky"⟩

/-- Second scripted result of the success witness: two entries, clean call. -/
def rdClean : RDResult :=
  ⟨[⟨"a", false, false, some 2⟩, ⟨"b", false, false, some 3⟩], none⟩

/-- C7 witness env: a script with one erroring call returning an entry and then
a clean call returning two more. -/
def envSuccess : Env :=
  { cancelled := false
    statDir := fun _ => some 0
    openOk := fun _ => true
    readScript := fun _ => [rdFlaky, rdClean]
    statIsDir := fun _ => some false
    markerExists := fun _ => false
    isAudioFile := fun _ => false
    isImageFile := fun _ => false
    isValidPlaylist := fun _ => false
    goosWindows := false
    clean := fun s => s }

/-- C8 witness env: a cancelled context over a directory whose script would
happily return entries. -/
def envCancelled : Env :=
  { envSuccess with cancelled := true }

/-- Subdirectory entry of the witness tree. -/
def dirA : DirEntry :=
  ⟨"a", true, false, none⟩

/-- Witness env for the walker claims: a root directory `r` whose stat time 10
is not after its recorded update time 20, with one subdirectory `r/a` whose
stat time 30 is after its (never recorded) update time 0. -/
def envTree : Env :=
  { cancelled := false
    statDir := fun p => if p = "r" then some 10 else if p = "r/a" then some 30 else none
    openOk := fun _ => true
    readScript := fun p => if p = "r" then [⟨[dirA], none⟩] else [⟨[], none⟩]
    statIsDir := fun _ => some false
    markerExists := fun _ => false
    isAudioFile := fun _ => false
    isImageFile := fun _ => false
    isValidPlaylist := fun _ => false
    goosWindows := false
    clean := fun s => s }

/-- Witness scan context for the walker claims: no full rescan, root `r`
recorded at time 20, nothing else recorded. -/
def scTree : scanContext :=
  { fullRescan := false
    lastUpdated := fun s => if s = "r" then 20 else 0
    folderId := fun s => s }

/-- The folder the witness tree loads at `r/a`: outdated, no content. -/
def folderA : folderEntry :=
  { id := "r/a", path := "r/a", updTime := 0, modTime := 30,
    imagesUpdatedAt := 0, audioFiles := [], imageFiles := [], playlists := [] }

/-- The folder the witness tree loads at `r`: not outdated, one subdirectory. -/
def folderR : folderEntry :=
  { id := "r", path := "r", updTime := 20, modTime := 10,
    imagesUpdatedAt := 0, audioFiles := [], imageFiles := [], playlists := [] }

/-- Witness media file for the archiver claims. -/
def mfWitness : MediaFile :=
  { path := "/m/x.mp3", suffix := "mp3", artist := "Art", title := "Tit",
    album := "Alb", albumID := "al1", discNumber := 1 }

/-- Witness zip environment: a two-track album and a one-track playlist whose
store queries succeed, every `addFileToZip` call failing, the final close
succeeding. -/
def zipEnvW : ZipEnv :=
  { albumQuery := Except.ok [mfWitness, { mfWitness with path := "/m/y.mp3", title := "Two" }]
    artistQuery := Except.ok [mfWitness]
    playlistQuery := Except.ok [mfWitness]
    addOutcome := fun _ => some "write failed"
    closeOutcome := none }

/-- An entry of the listing reaches the non-directory branch of the `loadDir`
loop: its directory-or-symlink resolution succeeds and it is not kept as a
child (it is no directory, or it is ignored, or it is unreadable). -/
def nonDirBranch (env : Env) (dirPath : String) (e : DirEntry) : Bool :=
  match isDirOrSymlinkToDir env dirPath e with
  | none => false
  | some d => !(d && !isDirIgnored env dirPath e && isDirReadable env dirPath e)

/-- An entry reaches the image case of the classification switch: it is not
classified audio, not classified playlist, and is classified image. -/
def imageCase (env : Env) (e : DirEntry) : Bool :=
  !env.isAudioFile e.name && !env.isValidPlaylist e.name && env.isImageFile e.name

/-- An entry of the listing reaches the image case inside the non-directory
branch. -/
def imageBranch (env : Env) (dirPath : String) (e : DirEntry) : Bool :=
  nonDirBranch env dirPath e && imageCase env e

/-- The modification time an entry reports (0 is never read under the
hypotheses that `Info()` succeeded). -/
def entryTime (e : DirEntry) : Int :=
  e.info.getD 0

/-- Written from the words of claim C4: the most recent modification time among
the directory stat time and its immediate non-directory children classified as
audio, image or playlist files. -/
def claimedModTime (env : Env) (t0 : Int) (entries : List DirEntry) : Int :=
  (entries.filter (fun e => !e.isDir &&
    (env.isAudioFile e.name || env.isImageFile e.name || env.isValidPlaylist e.name))).foldl
    (fun t e => max t (entryTime e)) t0

/-- A plain text file, classified neither audio nor image nor playlist. -/
def noteTxt : DirEntry :=
  ⟨"note.txt", false, false, some 100⟩

/-- Counterexample env for C4: a directory `d` with stat time 50 containing one
unclassified plain file of modification time 100. -/
def envPlain : Env :=
  { cancelled := false
    statDir := fun _ => some 50
    openOk := fun _ => true
    readScript := fun _ => [⟨[noteTxt], none⟩]
    statIsDir := fun _ => some false
    markerExists := fun _ => false
    isAudioFile := fun _ => false
    isImageFile := fun _ => false
    isValidPlaylist := fun _ => false
    goosWindows := false
    clean := fun s => s }

/-- Scan context with nothing recorded and no full rescan. -/
def scPlain : scanContext :=
  { fullRescan := false
    lastUpdated := fun _ => 0
    folderId := fun s => s }

/-- The folder `loadDir` produces in the C4 counterexample. -/
def folderPlain : folderEntry :=
  { id := "d", path := "d", updTime := 0, modTime := 100,
    imagesUpdatedAt := 0, audioFiles := [], imageFiles := [], playlists := [] }

/-- Env witnessing the amended C4: a directory with stat time 50, one image of
time 70, one audio file of time 90 and one ignored dot-subdirectory of time
120. -/
def envTimes : Env :=
  { cancelled := false
    statDir := fun _ => some 50
    openOk := fun _ => true
    readScript := fun _ =>
      [⟨[⟨"cover.jpg", false, false, some 70⟩, ⟨"song.mp3", false, false, some 90⟩,
         ⟨".git", true, false, some 120⟩], none⟩]
    statIsDir := fun _ => some false
    markerExists := fun _ => false
    isAudioFile := fun n => n = "song.mp3"
    isImageFile := fun n => n = "cover.jpg"
    isValidPlaylist := fun _ => false
    goosWindows := false
    clean := fun s => s }

/-- Subdirectory entry `a` of the C5 counterexample tree. -/
def entSubA : DirEntry :=
  ⟨"a", true, false, none⟩

/-- File entry `b` of the C5 counterexample tree, whose `Info()` fails. -/
def entBadB : DirEntry :=
  ⟨"b", false, false, none⟩

/-- Audio file entry `c` of the C5 counterexample tree, listed after `b`. -/
def entGoodC : DirEntry :=
  ⟨"c", false, false, some 5⟩

/-- Broken symlink entry of the C5 witness: its resolving stat fails. -/
def entBrokenLink : DirEntry :=
  ⟨"s", false, true, none⟩

/-- Counterexample env for C5: directory `d` lists the subdirectory `a`, the
metadata-failing file `b` and the audio file `c`; the stat of the symlink
target `d/s` fails. -/
def envBad : Env :=
  { cancelled := false
    statDir := fun p => if p = "d" then some 1 else if p = "d/a" then some 2 else none
    openOk := fun _ => true
    readScript := fun p => if p = "d" then [⟨[entSubA, entBadB, entGoodC], none⟩]
      else [⟨[], none⟩]
    statIsDir := fun p => if p = "d/s" then none else some false
    markerExists := fun _ => false
    isAudioFile := fun _ => true
    isImageFile := fun _ => false
    isValidPlaylist := fun _ => false
    goosWindows := false
    clean := fun s => s }

/-- Scan context of the C5 counterexample: forced full rescan, so every loaded
folder would be emitted. -/
def scBad : scanContext :=
  { fullRescan := true
    lastUpdated := fun _ => 0
    folderId := fun s => s }

/-- The partial folder `loadDir` returns for `d` in the C5 counterexample:
no file was classified. -/
def folderBad : folderEntry :=
  { id := "d", path := "d", updTime := 0, modTime := 1,
    imagesUpdatedAt := 0, audioFiles := [], imageFiles := [], playlists := [] }

/-- The folder of the child `d/a` of the C5 counterexample. -/
def folderBadA : folderEntry :=
  { id := "d/a", path := "d/a", updTime := 0, modTime := 2,
    imagesUpdatedAt := 0, audioFiles := [], imageFiles := [], playlists := [] }

theorem fullReadDirGo_through (l : List RDResult) : ∀ (rest : List RDResult)
    (prevErrStr : String) (acc : List DirEntry), runsThrough prevErrStr l = true →
    fullReadDirGo false prevErrStr acc (l ++ rest) =
      ((fullReadDirGo false (lastMsgAfter prevErrStr l)
          (acc ++ l.flatMap RDResult.entries) rest).1,
       (fullReadDirGo false (lastMsgAfter prevErrStr l)
          (acc ++ l.flatMap RDResult.entries) rest).2 + l.length) := by
  induction l with
  | nil =>
    intro rest prevErrStr acc _
    simp [runsThrough, lastMsgAfter, fullReadDirGo]
  | cons r l ih =>
    intro rest prevErrStr acc hrun
    match hm : r.errMsg with
    | none => simp [runsThrough, hm] at hrun
    | some m =>
      simp only [runsThrough, hm] at hrun
      by_cases hpm : prevErrStr = m
      · simp [hpm] at hrun
      · simp only [if_neg hpm] at hrun
        simp only [List.cons_append, fullReadDirGo, hm, if_neg hpm, Bool.false_eq_true,
          if_false, lastMsgAfter, Option.getD_some, List.flatMap_cons]
        have heq : l.append rest = l ++ rest := rfl
        rw [heq, ih rest m (acc ++ r.entries) hrun]
        simp [List.append_assoc, List.length_cons]
        omega

/-- C3: on any sequence of `ReadDir` results in which the same error message
occurs on two consecutive calls (the erroring results `pre`, whose messages
never repeat back to back, followed by `stuck` carrying the same message `m`
as the last result of `pre`), `fullReadDir` terminates right after that second
occurrence — it performs exactly `pre.length + 1` calls, whatever follows, in
particular on an unbounded continuation of identical errors — and returns only
the entries accumulated by the time the repeat is detected: the entries of the
performed calls (the stuck call appends its entries before the repeated
message is compared), sorted by name. -/
theorem C3_fullReadDir_stuck (env : Env) (p : String) (pre : List RDResult)
    (stuck : RDResult) (rest : List RDResult) (m : String)
    (hc : env.cancelled = false)
    (hs : env.readScript p = pre ++ stuck :: rest)
    (hrun : runsThrough "" pre = true)
    (hpre : pre ≠ [])
    (hmsg : stuck.errMsg = some m)
    (hm : lastMsgAfter "" pre = m) :
    fullReadDirCalls env p = pre.length + 1 ∧
    fullReadDir env p = sortEntries ((pre ++ [stuck]).flatMap RDResult.entries) := by
  have hgo := fullReadDirGo_through pre (stuck :: rest) "" [] hrun
  rw [hm] at hgo
  simp only [List.nil_append] at hgo
  have hstep : fullReadDirGo false m (pre.flatMap RDResult.entries) (stuck :: rest) =
      (pre.flatMap RDResult.entries ++ stuck.entries, 1) := by
    simp [fullReadDirGo, hmsg]
  constructor
  · rw [fullReadDirCalls, hc, hs, hgo, hstep]
    simp [Nat.add_comm]
  · rw [fullReadDir, hc, hs, hgo, hstep]
    simp

/-- Witness for C3 at a concrete stuck script: two calls are made out of five
scripted ones and both accumulated entries come back, sorted. -/
theorem C3_fullReadDir_stuck_witness :
    fullReadDirCalls envStuck "d" = 2 ∧
    fullReadDir envStuck "d" =
      sortEntries (([rdStuck1] ++ [rdStuck2]).flatMap RDResult.entries) :=
  C3_fullReadDir_stuck envStuck "d" [rdStuck1] rdStuck2
    (List.replicate 3 ⟨[], some "boom"⟩)
    "boom" rfl (by decide) (by decide) (by decide) (by decide) (by decide)

/-- C7: on any sequence of `ReadDir` results the reader runs through until a
call returns no error (erroring results `pre` with no back-to-back repeated
message, then the clean result `ok`), `fullReadDir` stops at that clean call
and returns the entries of every performed call — including those returned by
the erroring calls — as a list sorted by name, a permutation of everything
accumulated; being a function of the script, the result is deterministic for a
fixed snapshot. -/
theorem C7_fullReadDir_success (env : Env) (p : String) (pre : List RDResult)
    (ok : RDResult) (rest : List RDResult)
    (hc : env.cancelled = false)
    (hs : env.readScript p = pre ++ ok :: rest)
    (hrun : runsThrough "" pre = true)
    (hok : ok.errMsg = none) :
    fullReadDirCalls env p = pre.length + 1 ∧
    fullReadDir env p = sortEntries ((pre ++ [ok]).flatMap RDResult.entries) ∧
    (fullReadDir env p).Perm ((pre ++ [ok]).flatMap RDResult.entries) ∧
    List.Sorted nameLe (fullReadDir env p) := by
  have hgo := fullReadDirGo_through pre (ok :: rest) "" [] hrun
  have hstep : fullReadDirGo false (lastMsgAfter "" pre)
      (pre.flatMap RDResult.entries) (ok :: rest) =
      (pre.flatMap RDResult.entries ++ ok.entries, 1) := by
    simp [fullReadDirGo, hok]
  refine ⟨?_, ?_, ?_, ?_⟩
  · rw [fullReadDirCalls, hc, hs]
    simp at hgo
    rw [hgo, hstep]
    simp [Nat.add_comm]
  · rw [fullReadDir, hc, hs]
    simp at hgo
    rw [hgo, hstep]
    simp
  · rw [fullReadDir, hc, hs]
    simp at hgo
    rw [hgo, hstep]
    simp only [sortEntries]
    exact (List.perm_insertionSort nameLe _).trans (by simp)
  · rw [fullReadDir]
    exact List.sorted_insertionSort nameLe _

/-- Witness for C7 at a concrete flaky-then-clean script: both calls run, every
entry is kept — the erroring call included — and the output is sorted. -/
theorem C7_fullReadDir_success_witness :
    fullReadDirCalls envSuccess "d" = 2 ∧
    fullReadDir envSuccess "d" =
      sortEntries (([rdFlaky] ++ [rdClean]).flatMap RDResult.entries) ∧
    (fullReadDir envSuccess "d").Perm
      (([rdFlaky] ++ [rdClean]).flatMap RDResult.entries) ∧
    List.Sorted nameLe (fullReadDir envSuccess "d") :=
  C7_fullReadDir_success envSuccess "d" [rdFlaky] rdClean []
    rfl (by decide) (by decide) (by decide)

/-- C8: when the surrounding context is already cancelled at the time
`fullReadDir` is invoked, it returns the empty entry list at once and performs
no `ReadDir` call at all, whatever the directory would have answered. -/
theorem C8_fullReadDir_cancelled (env : Env) (p : String)
    (hc : env.cancelled = true) :
    fullReadDir env p = [] ∧ fullReadDirCalls env p = 0 := by
  rw [fullReadDir, fullReadDirCalls, hc]
  cases env.readScript p with
  | nil => simp [fullReadDirGo, sortEntries, List.insertionSort]
  | cons r rest => simp [fullReadDirGo, sortEntries, List.insertionSort]

/-- Witness for C8 at a concrete cancelled context: nothing is returned and no
call is made even though the script has entries to give. -/
theorem C8_fullReadDir_cancelled_witness :
    fullReadDir envCancelled "d" = [] ∧ fullReadDirCalls envCancelled "d" = 0 :=
  C8_fullReadDir_cancelled envCancelled "d" rfl

theorem walkFolder_step (env : Env) (sc : scanContext) (p : String)
    (f : folderEntry) (cs : List String) (n : Nat)
    (h : loadDir env sc p = ⟨some f, cs, none⟩) :
    walkFolder env sc (n + 1) p =
      cs.flatMap (fun c => walkFolder env sc n c) ++
        (if f.isOutdated || sc.fullRescan then [{ f with path := env.clean p }] else []) := by
  cases ho : f.isOutdated <;> cases hr : sc.fullRescan <;>
    simp [walkFolder, h, ho, hr]

/-- C1: a successfully loaded directory is emitted if and only if it is
outdated (per the spec, recomputed `modTime` strictly after `updTime`) or the
scan context carries the full-rescan flag: exactly then does the call append
the finalized folder after the emissions of its children; when neither holds,
the call returns only what its children emitted, with no entry of its own. -/
theorem C1_walkFolder_emits_iff (env : Env) (sc : scanContext) (p : String)
    (f : folderEntry) (cs : List String) (n : Nat)
    (h : loadDir env sc p = ⟨some f, cs, none⟩) :
    ((∃ ds, walkFolder env sc (n + 1) p = ds ++ [{ f with path := env.clean p }] ∧
        ds = cs.flatMap (fun c => walkFolder env sc n c)) ↔
      (f.isOutdated || sc.fullRescan) = true) ∧
    ((f.isOutdated || sc.fullRescan) = false →
      walkFolder env sc (n + 1) p = cs.flatMap (fun c => walkFolder env sc n c)) := by
  have hw := walkFolder_step env sc p f cs n h
  constructor
  · constructor
    · intro ⟨ds, hds, hdse⟩
      by_contra hcond
      rw [Bool.not_eq_true] at hcond
      rw [hcond, if_neg (by simp)] at hw
      rw [hw, hdse] at hds
      have := congrArg List.length hds
      simp at this
    · intro hcond
      exact ⟨cs.flatMap (fun c => walkFolder env sc n c), by rw [hw, hcond, if_pos rfl], rfl⟩
  · intro hcond
    rw [hw, hcond, if_neg (by simp)]
    simp

/-- C2: after a successful load, the call recurses into every collected child
(in order) before the emission decision for the current directory, so the whole
output of the children — every emitted descendant — precedes the optional
emission of the directory itself, which comes last; and when the directory is
suppressed (neither outdated nor under full rescan) its children are still
walked, so outdated descendants are still emitted. -/
theorem C2_walkFolder_children_first (env : Env) (sc : scanContext) (p : String)
    (f : folderEntry) (cs : List String) (n : Nat)
    (h : loadDir env sc p = ⟨some f, cs, none⟩) :
    walkFolder env sc (n + 1) p =
      cs.flatMap (fun c => walkFolder env sc n c) ++
        (if f.isOutdated || sc.fullRescan then [{ f with path := env.clean p }] else []) ∧
    ((f.isOutdated || sc.fullRescan) = false →
      walkFolder env sc (n + 1) p = cs.flatMap (fun c => walkFolder env sc n c)) := by
  have hw := walkFolder_step env sc p f cs n h
  exact ⟨hw, fun hcond => by rw [hw, hcond, if_neg (by simp)]; simp⟩

/-- Witness for C1 at the outdated subdirectory `r/a` of the witness tree: its
load succeeds, it is outdated, and its call emits it (after its — empty — list
of children). -/
theorem C1_walkFolder_emits_iff_witness :
    loadDir envTree scTree "r/a" = ⟨some folderA, [], none⟩ ∧
    ((∃ ds, walkFolder envTree scTree 1 "r/a" =
        ds ++ [{ folderA with path := envTree.clean "r/a" }] ∧
        ds = ([] : List String).flatMap (fun c => walkFolder envTree scTree 0 c)) ↔
      (folderA.isOutdated || scTree.fullRescan) = true) :=
  ⟨by decide,
   (C1_walkFolder_emits_iff envTree scTree "r/a" folderA [] 0 (by decide)).1⟩

/-- Witness for C2 at the suppressed root `r` of the witness tree: its load
succeeds with child `r/a`, the root is neither outdated nor under full rescan,
and its call still walks the child — whose outdated folder is emitted — while
emitting nothing for `r` itself. -/
theorem C2_walkFolder_children_first_witness :
    loadDir envTree scTree "r" = ⟨some folderR, ["r/a"], none⟩ ∧
    walkFolder envTree scTree 2 "r" =
      (["r/a"] : List String).flatMap (fun c => walkFolder envTree scTree 1 c) ∧
    walkFolder envTree scTree 2 "r" = [folderA] :=
  ⟨by decide,
   (C2_walkFolder_children_first envTree scTree "r" folderR ["r/a"] 1 (by decide)).2
     (by decide),
   by decide⟩

/-- C6: `isDirIgnored` returns true exactly when the name starts with a dot
but not with two dots, or — on Windows only — the name equals the recycle-bin
folder name up to case, or the configured skip-scan marker file exists inside
the subdirectory; in particular, with no marker files and off Windows, a
directory named `.hidden` is ignored while `...Deluxe Edition` is not. -/
theorem C6_isDirIgnored_iff (env : Env) (baseDir : String) (e : DirEntry) :
    isDirIgnored env baseDir e =
      ((strHasPre e.name "." && !strHasPre e.name "..") ||
        (env.goosWindows && equalFold e.name "$RECYCLE.BIN") ||
        env.markerExists (pjoin baseDir e.name)) ∧
    isDirIgnored envTree "b" ⟨".hidden", true, false, none⟩ = true ∧
    isDirIgnored envTree "b" ⟨"...Deluxe Edition", true, false, none⟩ = false := by
  refine ⟨?_, by decide, by decide⟩
  simp only [isDirIgnored]
  cases h1 : (strHasPre e.name "." && !strHasPre e.name "..") <;>
    cases h2 : (env.goosWindows && equalFold e.name "$RECYCLE.BIN") <;>
      simp [h1, h2]

/-- C10: `playlistFilename` produces a name of the shape
`NN - Artist - Title.ext`: the one-based index zero-padded to two digits (two
characters whenever `idx + 1` is below ten), then the artist and the title
separated by dashes, then a dot and the extension, which is the original
suffix of the media file exactly when the requested format is `raw` and the
requested format itself otherwise. -/
theorem C10_playlistFilename_form (mf : MediaFile) (format : String) (idx : Nat) :
    (format = "raw" →
      playlistFilename mf format idx =
        pad2 (idx + 1) ++ " - " ++ mf.artist ++ " - " ++ mf.title ++ "." ++ mf.suffix) ∧
    (format ≠ "raw" →
      playlistFilename mf format idx =
        pad2 (idx + 1) ++ " - " ++ mf.artist ++ " - " ++ mf.title ++ "." ++ format) ∧
    (idx + 1 < 10 → (pad2 (idx + 1)).length = 2) := by
  refine ⟨fun hraw => ?_, fun hraw => ?_, fun hlt => ?_⟩
  · simp [playlistFilename, hraw]
  · simp [playlistFilename, hraw]
  · have h9 : idx < 9 := by omega
    interval_cases idx <;> decide

/-- Witness for C10 at a concrete file and index: raw keeps the mp3 suffix,
a requested ogg format replaces it, and the index 4 prints as the two-digit
`05`. -/
theorem C10_playlistFilename_form_witness :
    playlistFilename mfWitness "raw" 4 =
      pad2 (4 + 1) ++ " - " ++ mfWitness.artist ++ " - " ++ mfWitness.title ++ "." ++
        mfWitness.suffix ∧
    playlistFilename mfWitness "ogg" 4 =
      pad2 (4 + 1) ++ " - " ++ mfWitness.artist ++ " - " ++ mfWitness.title ++ "." ++ "ogg" ∧
    (pad2 (4 + 1)).length = 2 :=
  ⟨(C10_playlistFilename_form mfWitness "raw" 4).1 rfl,
   (C10_playlistFilename_form mfWitness "ogg" 4).2.1 (by decide),
   (C10_playlistFilename_form mfWitness "ogg" 4).2.2 (by decide)⟩

/-- C9: the three zip entry points report an error only from the initial store
query or from the final close of the zip writer: each returns exactly the query
error when the query fails, and otherwise exactly the close outcome, whatever
every individual `addFileToZip` call returned — those per-file outcomes are
discarded and the remaining files are still added: every queried media file has
its entry-name added to the call trace (for albums under its album file name,
for playlists one call per track). -/
theorem C9_zip_error_only_query_or_close (env : ZipEnv) (format : String) :
    (ZipAlbum env format).2 =
      (match env.albumQuery with
       | Except.error e => some e
       | Except.ok _ => env.closeOutcome) ∧
    (ZipArtist env format).2 =
      (match env.artistQuery with
       | Except.error e => some e
       | Except.ok _ => env.closeOutcome) ∧
    (ZipPlaylist env format).2 =
      (match env.playlistQuery with
       | Except.error e => some e
       | Except.ok _ => env.closeOutcome) ∧
    (∀ mfs, env.albumQuery = Except.ok mfs → ∀ mf ∈ mfs,
      ∃ b o, (albumFilename mf format b, o) ∈ (ZipAlbum env format).1) ∧
    (∀ mfs, env.playlistQuery = Except.ok mfs →
      (ZipPlaylist env format).1.length = mfs.length) := by
  refine ⟨?_, ?_, ?_, ?_, ?_⟩
  · cases hq : env.albumQuery <;> simp [ZipAlbum, zipAlbums, hq]
  · cases hq : env.artistQuery <;> simp [ZipArtist, zipAlbums, hq]
  · cases hq : env.playlistQuery <;> simp [ZipPlaylist, zipPlaylist, hq]
  · intro mfs hq mf hmf
    refine ⟨decide (1 < (groupVals (fun x => x.discNumber)
      (mfs.filter (fun x => x.albumID = mf.albumID))).length),
      addFileToZip env (albumFilename mf format (decide (1 < (groupVals (fun x => x.discNumber)
        (mfs.filter (fun x => x.albumID = mf.albumID))).length))), ?_⟩
    simp only [ZipAlbum, hq, zipAlbums, List.mem_flatMap]
    refine ⟨mfs.filter (fun x => x.albumID = mf.albumID), ?_, ?_⟩
    · simp only [groupVals, List.mem_map]
      exact ⟨mf.albumID, by simp [List.mem_dedup, List.mem_map]; exact ⟨mf, hmf, rfl⟩, rfl⟩
    · exact List.mem_map.2 ⟨mf, List.mem_filter.2 ⟨hmf, by simp⟩, rfl⟩
  · intro mfs hq
    simp [ZipPlaylist, hq, zipPlaylist]

/-- Witness for C9 at a concrete environment where every per-file add fails:
all three entry points still return the close outcome (no error), the album
trace contains a call for each queried file, and the playlist trace has one
call per track. -/
theorem C9_zip_error_only_query_or_close_witness :
    (ZipAlbum zipEnvW "raw").2 = none ∧
    (∃ b o, (albumFilename mfWitness "raw" b, o) ∈ (ZipAlbum zipEnvW "raw").1) ∧
    (ZipPlaylist zipEnvW "raw").1.length = 1 :=
  ⟨((C9_zip_error_only_query_or_close zipEnvW "raw").1).trans (by decide),
   (C9_zip_error_only_query_or_close zipEnvW "raw").2.2.2.1
     [mfWitness, { mfWitness with path := "/m/y.mp3", title := "Two" }] rfl mfWitness
     (by decide),
   ((C9_zip_error_only_query_or_close zipEnvW "raw").2.2.2.2 [mfWitness] rfl).trans rfl⟩

theorem ifLtMax (a b : Int) : (if a < b then b else a) = max a b := by
  rcases lt_or_le a b with h | h
  · simp [h, max_eq_right h.le]
  · simp [not_lt.2 h, max_eq_left h]

theorem classifyEntry_modTime (env : Env) (e : DirEntry) (t : Int) (f : folderEntry) :
    (classifyEntry env e t f).modTime = max f.modTime t := by
  rw [← ifLtMax]
  by_cases ha : env.isAudioFile e.name <;>
    by_cases hp : env.isValidPlaylist e.name <;>
      by_cases hi : env.isImageFile e.name <;>
        by_cases hm : f.modTime < t <;>
          simp [classifyEntry, ha, hp, hi, hm] <;>
            by_cases him : f.imagesUpdatedAt < t <;> simp [him]

theorem classifyEntry_images (env : Env) (e : DirEntry) (t : Int) (f : folderEntry) :
    (classifyEntry env e t f).imagesUpdatedAt =
      (if imageCase env e then max f.imagesUpdatedAt t else f.imagesUpdatedAt) := by
  by_cases ha : env.isAudioFile e.name <;>
    by_cases hp : env.isValidPlaylist e.name <;>
      by_cases hi : env.isImageFile e.name <;>
        by_cases hm : f.modTime < t <;>
          simp [classifyEntry, imageCase, ha, hp, hi, hm, ← ifLtMax] <;>
            by_cases him : f.imagesUpdatedAt < t <;> simp [him]

theorem loadDirLoop_times (env : Env) (dirPath : String) (hc : env.cancelled = false)
    (entries : List DirEntry) :
    ∀ (f : folderEntry) (cs : List String),
    (∀ e ∈ entries, nonDirBranch env dirPath e = true → e.info.isSome = true) →
    (loadDirLoop env dirPath entries f cs).err = none ∧
    ∃ g, (loadDirLoop env dirPath entries f cs).folder = some g ∧
      g.modTime = (entries.filter (fun e => nonDirBranch env dirPath e)).foldl
        (fun t e => max t (entryTime e)) f.modTime ∧
      g.imagesUpdatedAt = (entries.filter (fun e => imageBranch env dirPath e)).foldl
        (fun t e => max t (entryTime e)) f.imagesUpdatedAt := by
  induction entries with
  | nil =>
    intro f cs _
    exact ⟨rfl, f, rfl, rfl, rfl⟩
  | cons e rest ih =>
    intro f cs hinfo
    have hrest : ∀ x ∈ rest, nonDirBranch env dirPath x = true → x.info.isSome = true :=
      fun x hx => hinfo x (List.mem_cons_of_mem _ hx)
    match hd : isDirOrSymlinkToDir env dirPath e with
    | none =>
      have hnb : nonDirBranch env dirPath e = false := by simp [nonDirBranch, hd]
      have hib : imageBranch env dirPath e = false := by simp [imageBranch, hnb]
      have hloop : loadDirLoop env dirPath (e :: rest) f cs =
          loadDirLoop env dirPath rest f cs := by
        simp [loadDirLoop, hc, hd]
      rw [hloop, List.filter_cons_of_neg (by simp [hnb]),
        List.filter_cons_of_neg (by simp [hib])]
      exact ih f cs hrest
    | some d =>
      by_cases hkd : (d && !isDirIgnored env dirPath e && isDirReadable env dirPath e) = true
      · have hnb : nonDirBranch env dirPath e = false := by simp [nonDirBranch, hd, hkd]
        have hib : imageBranch env dirPath e = false := by simp [imageBranch, hnb]
        have hloop : loadDirLoop env dirPath (e :: rest) f cs =
            loadDirLoop env dirPath rest f (cs ++ [pjoin dirPath e.name]) := by
          simp [loadDirLoop, hc, hd, hkd]
        rw [hloop, List.filter_cons_of_neg (by simp [hnb]),
          List.filter_cons_of_neg (by simp [hib])]
        exact ih f (cs ++ [pjoin dirPath e.name]) hrest
      · have hkdf : (d && !isDirIgnored env dirPath e && isDirReadable env dirPath e) = false :=
          Bool.eq_false_iff.2 hkd
        have hnb : nonDirBranch env dirPath e = true := by
          simp only [nonDirBranch, hd, hkdf, Bool.not_false]
        have hsome := hinfo e (List.mem_cons_self _ _) hnb
        match ht : e.info with
        | none => rw [ht] at hsome; simp at hsome
        | some t =>
          have hloop : loadDirLoop env dirPath (e :: rest) f cs =
              loadDirLoop env dirPath rest (classifyEntry env e t f) cs := by
            simp [loadDirLoop, hc, hd, hkd, ht]
          have het : entryTime e = t := by simp [entryTime, ht]
          rw [hloop, List.filter_cons_of_pos (by simp [hnb])]
          obtain ⟨herr, g, hg, hmod, himg⟩ := ih (classifyEntry env e t f) cs hrest
          refine ⟨herr, g, hg, ?_, ?_⟩
          · rw [hmod, classifyEntry_modTime]
            simp [het]
          · rw [himg, classifyEntry_images]
            by_cases hic : imageCase env e = true
            · rw [List.filter_cons_of_pos (by simp [imageBranch, hnb, hic]), hic]
              simp [het]
            · rw [List.filter_cons_of_neg (by simp [imageBranch, hic]), if_neg (by simp [hic])]

/-- Counterexample to C4: `loadDir` of a directory with stat time 50 whose only
child is a plain text file of time 100 — classified neither audio nor image nor
playlist — yields `modTime` 100, while the most recent time among the
directory metadata and the classified children, as the claim states it, is 50:
the unclassified file also feeds `modTime` in the source. -/
theorem C4_counterexample :
    (loadDir envPlain scPlain "d").folder = some folderPlain ∧
    folderPlain.modTime = 100 ∧
    claimedModTime envPlain 50 (fullReadDir envPlain "d") = 50 ∧
    ¬ (100 : Int) = 50 := by decide

/-- C4 (amended): for a directory whose stat and open succeed and whose listed
entries reaching the non-directory branch all have readable metadata, `loadDir`
succeeds and the resulting `modTime` is the most recent among the directory
stat time and the times of every entry of the non-directory branch — all
immediate non-directory children whatever their classification, together with
subdirectory entries that are ignored or unreadable — while `imagesUpdatedAt`
is the most recent time among the entries reaching the image classification
case (zero when there are none). -/
theorem C4_loadDir_modTime (env : Env) (sc : scanContext) (p : String) (t0 : Int)
    (hc : env.cancelled = false)
    (hstat : env.statDir p = some t0)
    (hopen : env.openOk p = true)
    (hinfo : ∀ e ∈ fullReadDir env p, nonDirBranch env p e = true → e.info.isSome = true) :
    (loadDir env sc p).err = none ∧
    ∃ g, (loadDir env sc p).folder = some g ∧
      g.modTime = ((fullReadDir env p).filter (fun e => nonDirBranch env p e)).foldl
        (fun t e => max t (entryTime e)) t0 ∧
      g.imagesUpdatedAt = ((fullReadDir env p).filter (fun e => imageBranch env p e)).foldl
        (fun t e => max t (entryTime e)) 0 := by
  have hload : loadDir env sc p =
      loadDirLoop env p (fullReadDir env p)
        { id := sc.folderId p, path := p, updTime := sc.lastUpdated (sc.folderId p),
          modTime := t0, imagesUpdatedAt := 0, audioFiles := [], imageFiles := [],
          playlists := [] } [] := by
    simp [loadDir, hstat, hopen]
  rw [hload]
  exact loadDirLoop_times env p hc (fullReadDir env p) _ [] hinfo

/-- Witness for the amended C4 at a concrete directory: the load succeeds and
the two folds give the folder times (`modTime` 120 via the ignored
subdirectory, `imagesUpdatedAt` 70 via the image). -/
theorem C4_loadDir_modTime_witness :
    ((loadDir envTimes scPlain "d").err = none ∧
    ∃ g, (loadDir envTimes scPlain "d").folder = some g ∧
      g.modTime = ((fullReadDir envTimes "d").filter
        (fun e => nonDirBranch envTimes "d" e)).foldl (fun t e => max t (entryTime e)) 50 ∧
      g.imagesUpdatedAt = ((fullReadDir envTimes "d").filter
        (fun e => imageBranch envTimes "d" e)).foldl (fun t e => max t (entryTime e)) 0) ∧
    ((loadDir envTimes scPlain "d").folder.map folderEntry.modTime = some 120 ∧
      (loadDir envTimes scPlain "d").folder.map folderEntry.imagesUpdatedAt = some 70) :=
  ⟨C4_loadDir_modTime envTimes scPlain "d" 50 rfl rfl rfl (by decide), by decide⟩

/-- Counterexample to C5: in directory `d` the metadata of entry `b` is
unreadable; `loadDir` stops at `b` with an error — the audio file `c` listed
after it is never classified — and `walkFolder`, under a forced full rescan
that would otherwise emit everything, emits nothing for `d` and does not
recurse into the already collected child `d/a`, even though walking that child
directly would emit it: the per-entry metadata error drops the whole directory
and its subtree. -/
theorem C5_counterexample :
    loadDir envBad scBad "d" = ⟨some folderBad, ["d/a"], some (ScanErr.infoErr "b")⟩ ∧
    folderBad.audioFiles = [] ∧
    walkFolder envBad scBad 2 "d" = [] ∧
    walkFolder envBad scBad 1 "d/a" = [folderBadA] ∧
    scBad.fullRescan = true := by decide

/-- C5 (amended): during the entry loop, a failure to resolve an entry as
directory-or-symlink-to-directory (a broken symlink) is logged and skips only
that entry, the rest of the listing being processed; but a failure of an
entry's `Info()` metadata call makes `loadDir` return at once with an error —
dropping the remaining entries — and `walkFolder` then skips the entire
directory: nothing is emitted for it and none of its children are walked.  The
scan merely continues with the rest of the tree. -/
theorem C5_per_entry_errors (env : Env) (sc : scanContext) (dirPath : String)
    (e : DirEntry) (rest : List DirEntry) (f : folderEntry) (cs : List String) (n : Nat)
    (hc : env.cancelled = false) :
    (isDirOrSymlinkToDir env dirPath e = none →
      loadDirLoop env dirPath (e :: rest) f cs = loadDirLoop env dirPath rest f cs) ∧
    (nonDirBranch env dirPath e = true → e.info = none →
      loadDirLoop env dirPath (e :: rest) f cs =
        ⟨some f, cs, some (ScanErr.infoErr e.name)⟩) ∧
    ((loadDir env sc dirPath).err.isSome = true →
      walkFolder env sc (n + 1) dirPath = []) := by
  refine ⟨fun hd => by simp [loadDirLoop, hc, hd], fun hnb ht => ?_, fun herr => ?_⟩
  · simp only [nonDirBranch] at hnb
    match hd : isDirOrSymlinkToDir env dirPath e with
    | none => rw [hd] at hnb; simp at hnb
    | some d =>
      rw [hd] at hnb
      have hnb2 : (!(d && !isDirIgnored env dirPath e && isDirReadable env dirPath e)) = true :=
        hnb
      have hkd : (d && !isDirIgnored env dirPath e && isDirReadable env dirPath e) = false := by
        cases hx : (d && !isDirIgnored env dirPath e && isDirReadable env dirPath e) with
        | false => rfl
        | true => rw [hx] at hnb2; simp at hnb2
      simp [loadDirLoop, hc, hd, hkd, ht]
  · match he : (loadDir env sc dirPath).err with
    | none => rw [he] at herr; simp at herr
    | some err => simp [walkFolder, he]

/-- Witness for the amended C5 in the counterexample tree: the broken symlink
entry is skipped with processing continuing, the metadata failure of `b` ends
the load with its error right there, and the erroring load of `d` makes its
walk emit nothing. -/
theorem C5_per_entry_errors_witness :
    loadDirLoop envBad "d" (entBrokenLink :: [entGoodC]) folderBad [] =
      loadDirLoop envBad "d" [entGoodC] folderBad [] ∧
    loadDirLoop envBad "d" (entBadB :: [entGoodC]) folderBad [] =
      ⟨some folderBad, [], some (ScanErr.infoErr "b")⟩ ∧
    walkFolder envBad scBad 2 "d" = [] :=
  ⟨(C5_per_entry_errors envBad scBad "d" entBrokenLink [entGoodC] folderBad [] 1 rfl).1
     (by decide),
   (C5_per_entry_errors envBad scBad "d" entBadB [entGoodC] folderBad [] 1 rfl).2.1
     (by decide) (by decide),
   (C5_per_entry_errors envBad scBad "d" entBadB [entGoodC] folderBad [] 1 rfl).2.2
     (by decide)⟩
